import Mathlib

/-!
Shallow embedding of `midiGPIO_v0.2.2.ino` (UTZbox/midiGPIO).

The firmware polls four input pins, debounces them, and on a confirmed
edge sends MIDI messages (Note On/Off or Program Change) to both a USB
and a serial MIDI transport; inbound Note On/Off messages drive four
output pins. Digital pin levels are modelled as `Bool` (`true` = HIGH),
`millis()` timestamps as `Nat` with 32-bit wrap-around subtraction,
and the per-channel debounce state as an explicit record.
-/

namespace MidiGPIO

/-- Digital level HIGH (Arduino constant). -/
def HIGH : Bool := true

/-- Digital level LOW (Arduino constant). -/
def LOW : Bool := false

/-! ### Configuration constants (source lines 24–42) -/

/-- `const uint8_t inputPins[4] = {2, 3, 4, 5};` -/
def inputPins (i : Fin 4) : Nat := [2, 3, 4, 5].get i

/-- `const uint8_t outputPins[4] = {14, 15, 16, 17};` -/
def outputPins (i : Fin 4) : Nat := [14, 15, 16, 17].get i

/-- `const uint8_t noteNumbers[4] = {60, 61, 62, 63};` -/
def noteNumbers (i : Fin 4) : Nat := [60, 61, 62, 63].get i

/-- `const uint8_t programNumbers[4] = {0, 1, 2, 3};` -/
def programNumbers (i : Fin 4) : Nat := [0, 1, 2, 3].get i

/-- `const uint8_t MIDI_CHANNEL = 1;` -/
def MIDI_CHANNEL : Nat := 1

/-- `const unsigned long DEBOUNCE_MS = 10;` -/
def DEBOUNCE_MS : Nat := 10

/-- `const bool INPUT_ACTIVE_HIGH = true;` -/
def INPUT_ACTIVE_HIGH : Bool := true

/-- `const uint8_t NOTE_ON_VELOCITY = 110;` -/
def NOTE_ON_VELOCITY : Nat := 110

/-! ### 32-bit unsigned arithmetic

`millis()` returns `unsigned long` (32 bits on the target); the debounce
comparison `now - lastDebounceTime[i]` is computed modulo `2^32`. -/

/-- Truncation to 32 bits, the value range of `unsigned long`. -/
def u32 (n : Nat) : Nat := n % 4294967296

/-- 32-bit wrap-around subtraction `a - b` of `unsigned long` values. -/
def usub32 (a b : Nat) : Nat := (u32 a + 4294967296 - u32 b) % 4294967296

/-! ### Outbound MIDI messages and the dual-transport fan-out -/

/-- A semantic outbound MIDI message. -/
inductive MidiMsg where
  | noteOn (note velocity channel : Nat)
  | noteOff (note velocity channel : Nat)
  | progChange (program channel : Nat)
deriving Repr, DecidableEq

/-- The two outbound transports; `usb` is `usbMIDI`, the other the
serial `MIDI` library instance. -/
inductive Transport where
  | usb
  | serialPort
deriving Repr, DecidableEq

/-- One transport-level send. -/
abbrev Send := Transport × MidiMsg

/-- `sendMidiNoteOn` (source lines 177–184): sends to USB MIDI first,
then to serial MIDI. -/
def sendMidiNoteOn (note velocity channel : Nat) : List Send :=
  [(Transport.usb, MidiMsg.noteOn note velocity channel),
   (Transport.serialPort, MidiMsg.noteOn note velocity channel)]

/-- `sendMidiNoteOff` (source lines 186–193). -/
def sendMidiNoteOff (note velocity channel : Nat) : List Send :=
  [(Transport.usb, MidiMsg.noteOff note velocity channel),
   (Transport.serialPort, MidiMsg.noteOff note velocity channel)]

/-- `sendMidiProgramChange` (source lines 195–202). -/
def sendMidiProgramChange (program channel : Nat) : List Send :=
  [(Transport.usb, MidiMsg.progChange program channel),
   (Transport.serialPort, MidiMsg.progChange program channel)]

/-! ### Debounce engine (per-channel state, source lines 47–49 and 126–167) -/

/-- Per-channel debounce state: `lastStableState[i]`, `lastReadState[i]`,
`lastDebounceTime[i]`. -/
structure ChanState where
  lastStable : Bool
  lastRead : Bool
  lastDebounce : Nat
deriving Repr, DecidableEq

/-- Source line 121: `bool programMode = (digitalRead(MODE_PIN) == HIGH);` -/
def programModeOf (modePinLevel : Bool) : Bool := modePinLevel == HIGH

/-- Source lines 140–145: the active-polarity policy. -/
def activeOf (reading : Bool) : Bool :=
  if INPUT_ACTIVE_HIGH then reading == HIGH else reading == LOW

/-- Source lines 129–132: on a raw-level change, reset the debounce
timer and remember the new raw level. -/
def debUpdate (now : Nat) (reading : Bool) (s : ChanState) : ChanState :=
  if reading ≠ s.lastRead then
    { s with lastDebounce := now, lastRead := reading }
  else s

/-- Source lines 147–165: the MIDI action taken on a confirmed edge of
channel `i`, given the current mode. -/
def emitMsgs (programMode : Bool) (i : Fin 4) (active : Bool) : List Send :=
  if active then
    if programMode then
      sendMidiProgramChange (programNumbers i) MIDI_CHANNEL
    else
      sendMidiNoteOn (noteNumbers i) NOTE_ON_VELOCITY MIDI_CHANNEL
  else
    if !programMode then
      sendMidiNoteOff (noteNumbers i) 0 MIDI_CHANNEL
    else
      []

/-- One debounce poll of one channel (source lines 126–146): update the
raw-change tracking, and if the reading has been stable for at least
`DEBOUNCE_MS` and differs from the stable level, commit the stable level
and emit an edge event carrying the active flag. -/
def chanPoll (now : Nat) (reading : Bool) (s : ChanState) :
    ChanState × Option Bool :=
  if DEBOUNCE_MS ≤ usub32 now (debUpdate now reading s).lastDebounce then
    if (debUpdate now reading s).lastStable ≠ reading then
      ({ debUpdate now reading s with lastStable := reading },
       some (activeOf reading))
    else
      (debUpdate now reading s, none)
  else
    (debUpdate now reading s, none)

/-- One poll of one channel including the mode-dependent MIDI sends
(source lines 126–167). -/
def chanStep (programMode : Bool) (now : Nat) (reading : Bool) (i : Fin 4)
    (s : ChanState) : ChanState × List Send :=
  let r := chanPoll now reading s
  (r.1, match r.2 with
        | some active => emitMsgs programMode i active
        | none => [])

/-! ### Single-channel trace semantics

A trace `tr : Nat → Nat × Bool` gives, for `k ≥ 1`, the time and raw
reading of the `k`-th poll of one channel; `tr 0` is the time and
reading of the `setup()` initialization (source lines 70–72), which sets
`lastReadState = lastStableState = digitalRead(...)` and
`lastDebounceTime = millis()`. -/

/-- Debounce state of one channel after `k` polls of the trace `tr`. -/
def chanRun (tr : Nat → Nat × Bool) : Nat → ChanState
  | 0 => { lastStable := (tr 0).2, lastRead := (tr 0).2,
           lastDebounce := (tr 0).1 }
  | k + 1 => (chanPoll (tr (k + 1)).1 (tr (k + 1)).2 (chanRun tr k)).1

/-- The edge event (if any) emitted by the `k`-th poll of the trace:
`some a` means a confirmed edge with active flag `a`. -/
def chanEvent (tr : Nat → Nat × Bool) : Nat → Option Bool
  | 0 => none
  | k + 1 => (chanPoll (tr (k + 1)).1 (tr (k + 1)).2 (chanRun tr k)).2

/-! ### Main-loop polling pass over the four channels (source lines 124–168) -/

/-- Polling pass over a list of channel indices, in order: each channel
is polled with its own state, the state array is updated in place, and
the emitted sends are concatenated in polling order. -/
def loopChannels (programMode : Bool) (now : Nat) (readings : Fin 4 → Bool) :
    List (Fin 4) → (Fin 4 → ChanState) → (Fin 4 → ChanState) × List Send
  | [], st => (st, [])
  | i :: rest, st =>
    let r := chanStep programMode now (readings i) i (st i)
    let res := loopChannels programMode now readings rest
      (Function.update st i r.1)
    (res.1, r.2 ++ res.2)

/-- The polling half of one `loop()` iteration: the four channels are
polled in ascending index order `0,1,2,3` (the `for` loop of source
line 125). -/
def loopIter (programMode : Bool) (now : Nat) (readings : Fin 4 → Bool)
    (st : Fin 4 → ChanState) : (Fin 4 → ChanState) × List Send :=
  loopChannels programMode now readings [0, 1, 2, 3] st

/-! ### Inbound processing: output pin states (source lines 226–261) -/

/-- Levels of the output pins, indexed by pin number; `digitalWrite`
is pointwise update. -/
abbrev PinState := Nat → Bool

/-- `digitalWrite(pin, level)` on the output pin state. -/
def digitalWrite (pin : Nat) (level : Bool) (st : PinState) : PinState :=
  Function.update st pin level

/-- The first-match-wins lookup `for (i…) if (noteNumbers[i] == note) …
break;` shared by `processNoteOn` and `processNoteOff`. -/
def findChannel (note : Nat) : Option (Fin 4) :=
  if noteNumbers 0 = note then some 0
  else if noteNumbers 1 = note then some 1
  else if noteNumbers 2 = note then some 2
  else if noteNumbers 3 = note then some 3
  else none

/-- `processNoteOff` (source lines 249–261). The channel filter at line
250 has an empty body in the source (its `return` is commented out), so
the inbound MIDI channel has no effect. -/
def processNoteOff (channel note velocity : Nat) (st : PinState) : PinState :=
  match findChannel note with
  | some i => digitalWrite (outputPins i) HIGH st
  | none => st

/-- `processNoteOn` (source lines 226–247). Velocity 0 is delegated to
`processNoteOff`; otherwise the matching output pin is driven LOW.
The channel filter at line 228 has an empty body in the source. -/
def processNoteOn (channel note velocity : Nat) (st : PinState) : PinState :=
  if velocity = 0 then
    processNoteOff channel note velocity st
  else
    match findChannel note with
    | some i => digitalWrite (outputPins i) LOW st
    | none => st

/-! ### Concrete scenario: bounce on input pin 4 (channel index 2)

Raw level LOW before t = 0, HIGH at t = 0, LOW at t = 3 ms, HIGH at
t = 6 ms and thereafter, polled once per millisecond. -/

/-- Raw level of input pin 4 at time `t` in the bounce scenario. -/
def c2raw (t : Nat) : Bool :=
  if t < 3 then true else if t < 6 then false else true

/-- The poll trace of the bounce scenario: `setup()` samples LOW at
t = 0 just before the pin goes HIGH; loop poll `k + 1` happens at
t = `k` (one iteration per millisecond). -/
def c2tr : Nat → Nat × Bool
  | 0 => (0, false)
  | k + 1 => (k, c2raw k)

/-! ### Basic lemmas about the debounce primitives -/

theorem u32_eq_of_lt {n : Nat} (h : n < 4294967296) : u32 n = n :=
  Nat.mod_eq_of_lt h

theorem usub32_self (a : Nat) : usub32 a a = 0 := by
  unfold usub32
  have h1 : u32 a + 4294967296 - u32 a = 4294967296 := by omega
  rw [h1, Nat.mod_self]

theorem usub32_eq_sub {a b : Nat} (hba : b ≤ a) (ha : a < 4294967296) :
    usub32 a b = a - b := by
  unfold usub32
  rw [u32_eq_of_lt ha, u32_eq_of_lt (lt_of_le_of_lt hba ha)]
  have h1 : a + 4294967296 - b = (a - b) + 4294967296 := by omega
  rw [h1, Nat.add_mod_right, Nat.mod_eq_of_lt (by omega)]

theorem debUpdate_lastRead (now : Nat) (r : Bool) (s : ChanState) :
    (debUpdate now r s).lastRead = r := by
  unfold debUpdate
  split <;> simp_all

theorem debUpdate_lastStable (now : Nat) (r : Bool) (s : ChanState) :
    (debUpdate now r s).lastStable = s.lastStable := by
  unfold debUpdate
  split <;> rfl

theorem debUpdate_lastDebounce (now : Nat) (r : Bool) (s : ChanState) :
    (debUpdate now r s).lastDebounce =
      if r = s.lastRead then s.lastDebounce else now := by
  unfold debUpdate
  split <;> simp_all

theorem chanPoll_fst_lastRead (now : Nat) (r : Bool) (s : ChanState) :
    ((chanPoll now r s).1).lastRead = r := by
  unfold chanPoll
  split <;> [skip; exact debUpdate_lastRead now r s]
  split <;> exact debUpdate_lastRead now r s

theorem chanPoll_fst_lastDebounce (now : Nat) (r : Bool) (s : ChanState) :
    ((chanPoll now r s).1).lastDebounce = (debUpdate now r s).lastDebounce := by
  unfold chanPoll
  split <;> [skip; rfl]
  split <;> rfl

theorem chanPoll_event_ne_none_iff (now : Nat) (r : Bool) (s : ChanState) :
    (chanPoll now r s).2 ≠ none ↔
      DEBOUNCE_MS ≤ usub32 now (debUpdate now r s).lastDebounce ∧
        s.lastStable ≠ r := by
  unfold chanPoll
  split <;> rename_i h1
  · split <;> rename_i h2
    · simp only [ne_eq, reduceCtorEq, not_false_eq_true, true_iff]
      exact ⟨h1, by rw [debUpdate_lastStable] at h2; exact h2⟩
    · rw [debUpdate_lastStable] at h2
      simp_all
  · simp_all

theorem chanPoll_fst_lastStable (now : Nat) (r : Bool) (s : ChanState) :
    ((chanPoll now r s).1).lastStable =
      if (chanPoll now r s).2 = none then s.lastStable else r := by
  unfold chanPoll
  split
  · split
    · simp
    · simp [debUpdate_lastStable]
  · simp [debUpdate_lastStable]

theorem chanPoll_event_some {now : Nat} {r : Bool} {s : ChanState} {a : Bool}
    (h : (chanPoll now r s).2 = some a) : a = activeOf r := by
  unfold chanPoll at h
  split at h
  · split at h
    · simp only [Option.some.injEq] at h
      exact h.symm
    · simp at h
  · simp at h

/-- A poll whose reading agrees with both the raw and the stable level
leaves the state unchanged and emits nothing. -/
theorem chanPoll_noop (now : Nat) (r : Bool) (s : ChanState)
    (h1 : s.lastRead = r) (h2 : s.lastStable = r) :
    chanPoll now r s = (s, none) := by
  unfold chanPoll debUpdate
  simp [h1, h2]

/-! ### Trace-level lemmas for the debounce engine -/

theorem chanRun_lastRead (tr : Nat → Nat × Bool) (n : Nat) :
    (chanRun tr n).lastRead = (tr n).2 := by
  cases n with
  | zero => rfl
  | succ k => exact chanPoll_fst_lastRead _ _ _

/-- Step-indexed monotonicity from adjacent monotonicity. -/
theorem le_of_adjacent_le {f : Nat → Nat} {n : Nat}
    (h : ∀ k, k < n → f k ≤ f (k + 1)) :
    ∀ j k, j ≤ k → k ≤ n → f j ≤ f k := by
  intro j k hjk hkn
  induction k with
  | zero =>
    have : j = 0 := by omega
    rw [this]
  | succ m ih =>
    rcases Nat.lt_or_ge j (m + 1) with hlt | hge
    · exact le_trans (ih (by omega) (by omega)) (h m (by omega))
    · have : j = m + 1 := by omega
      subst this
      exact le_refl _

/-- The debounce window invariant: `lastDebounceTime` is the poll time
of the most recent raw-level change (or of initialization), and the raw
readings have been constant since then. -/
theorem chanRun_window (tr : Nat → Nat × Bool) (n : Nat) :
    ∃ c, c ≤ n ∧ (chanRun tr n).lastDebounce = (tr c).1 ∧
      ∀ l, c ≤ l → l ≤ n → (tr l).2 = (tr n).2 := by
  induction n with
  | zero =>
    exact ⟨0, le_refl 0, rfl, fun l h1 h2 => by
      have : l = 0 := Nat.le_zero.mp h2
      rw [this]⟩
  | succ k ih =>
    obtain ⟨c, hc, hdb, hconst⟩ := ih
    have hread : (chanRun tr k).lastRead = (tr k).2 := chanRun_lastRead tr k
    by_cases h : (tr (k + 1)).2 = (chanRun tr k).lastRead
    · refine ⟨c, by omega, ?_, ?_⟩
      · show ((chanPoll (tr (k + 1)).1 (tr (k + 1)).2 (chanRun tr k)).1).lastDebounce = _
        rw [chanPoll_fst_lastDebounce, debUpdate_lastDebounce, if_pos h, hdb]
      · intro l h1 h2
        rcases Nat.lt_or_ge l (k + 1) with hl | hl
        · rw [hconst l h1 (by omega), ← hread, ← h]
        · have : l = k + 1 := by omega
          rw [this]
    · refine ⟨k + 1, le_refl _, ?_, ?_⟩
      · show ((chanPoll (tr (k + 1)).1 (tr (k + 1)).2 (chanRun tr k)).1).lastDebounce = _
        rw [chanPoll_fst_lastDebounce, debUpdate_lastDebounce, if_neg h]
      · intro l h1 h2
        have : l = k + 1 := by omega
        rw [this]

/-- C1: for every sequence of raw pin reads with monotone poll
timestamps (no 32-bit overflow in range), the debounce engine emits no
edge event until the raw read level has remained constant for at least
`DEBOUNCE_MS` (10) milliseconds: whenever poll `n` emits an event, there
is a window start `c` at least 10 ms before poll `n` since which every
raw reading (including the one at `c`) equals the reading at `n`. Every
raw change resets the window, since no such `c` can be separated from
`n` by a raw change. -/
theorem debounce_no_early_event (tr : Nat → Nat × Bool) (n : Nat)
    (hmono : ∀ k, k < n → (tr k).1 ≤ (tr (k + 1)).1)
    (hbound : ∀ k, k ≤ n → (tr k).1 < 4294967296)
    (hev : chanEvent tr n ≠ none) :
    ∃ c, c ≤ n ∧ DEBOUNCE_MS ≤ (tr n).1 - (tr c).1 ∧
      ∀ l, c ≤ l → l ≤ n → (tr l).2 = (tr n).2 := by
  cases n with
  | zero => exact absurd rfl hev
  | succ k =>
    have hev' : (chanPoll (tr (k + 1)).1 (tr (k + 1)).2 (chanRun tr k)).2 ≠ none := hev
    rw [chanPoll_event_ne_none_iff] at hev'
    obtain ⟨helapsed, _⟩ := hev'
    rw [debUpdate_lastDebounce] at helapsed
    by_cases h : (tr (k + 1)).2 = (chanRun tr k).lastRead
    · rw [if_pos h] at helapsed
      obtain ⟨c, hc, hdb, hconst⟩ := chanRun_window tr k
      rw [hdb] at helapsed
      have hle : (tr c).1 ≤ (tr (k + 1)).1 :=
        le_of_adjacent_le hmono c (k + 1) (by omega) (le_refl _)
      rw [usub32_eq_sub hle (hbound (k + 1) (le_refl _))] at helapsed
      refine ⟨c, by omega, helapsed, ?_⟩
      intro l h1 h2
      rcases Nat.lt_or_ge l (k + 1) with hl | hl
      · rw [hconst l h1 (by omega), ← chanRun_lastRead tr k, ← h]
      · have : l = k + 1 := by omega
        rw [this]
    · rw [if_neg h, usub32_self] at helapsed
      exact absurd helapsed (by decide)

/-- Witness for `debounce_no_early_event` on a concrete trace: polls at
times 0, 10, 20 reading LOW, HIGH, HIGH; the second poll emits an edge
event and the debounce window is certified by the theorem. -/
theorem debounce_no_early_event_witness :
    (∀ k, k < 2 →
      ((fun m => (10 * m, decide (1 ≤ m))) k).1 ≤
        ((fun m => (10 * m, decide (1 ≤ m))) (k + 1)).1) ∧
    (∀ k, k ≤ 2 → ((fun m => (10 * m, decide (1 ≤ m))) k).1 < 4294967296) ∧
    chanEvent (fun m => (10 * m, decide (1 ≤ m))) 2 ≠ none ∧
    (∃ c, c ≤ 2 ∧
      DEBOUNCE_MS ≤ ((fun m => (10 * m, decide (1 ≤ m))) 2).1 -
        ((fun m => (10 * m, decide (1 ≤ m))) c).1 ∧
      ∀ l, c ≤ l → l ≤ 2 →
        ((fun m => (10 * m, decide (1 ≤ m))) l).2 =
          ((fun m => (10 * m, decide (1 ≤ m))) 2).2) :=
  ⟨by decide, by decide, by decide,
   debounce_no_early_event (fun m => (10 * m, decide (1 ≤ m))) 2
     (by decide) (by decide) (by decide)⟩

/-! ### The bounce scenario of C2 -/

theorem c2raw_high {t : Nat} (h : 6 ≤ t) : c2raw t = true := by
  unfold c2raw
  rw [if_neg (by omega), if_neg (by omega)]

set_option maxRecDepth 8192 in
/-- After poll 17 (t = 16 ms) the channel state is stably HIGH and never
changes again. -/
theorem c2_chanRun_fixed (m : Nat) :
    chanRun c2tr (17 + m) =
      { lastStable := true, lastRead := true, lastDebounce := 6 } := by
  induction m with
  | zero => decide
  | succ p ih =>
    have h1 : c2tr (17 + p + 1) = (17 + p, true) := by
      show (17 + p, c2raw (17 + p)) = _
      rw [c2raw_high (by omega)]
    show (chanPoll (c2tr (17 + p + 1)).1 (c2tr (17 + p + 1)).2
      (chanRun c2tr (17 + p))).1 = _
    rw [h1, ih]
    show (chanPoll (17 + p) true
      { lastStable := true, lastRead := true, lastDebounce := 6 }).1 = _
    rw [chanPoll_noop (17 + p) true
      { lastStable := true, lastRead := true, lastDebounce := 6 } rfl rfl]

theorem c2_event_late (m : Nat) : chanEvent c2tr (17 + m + 1) = none := by
  have h1 : c2tr (17 + m + 1) = (17 + m, true) := by
    show (17 + m, c2raw (17 + m)) = _
    rw [c2raw_high (by omega)]
  show (chanPoll (c2tr (17 + m + 1)).1 (c2tr (17 + m + 1)).2
    (chanRun c2tr (17 + m))).2 = none
  rw [h1, c2_chanRun_fixed]
  show (chanPoll (17 + m) true
    { lastStable := true, lastRead := true, lastDebounce := 6 }).2 = none
  rw [chanPoll_noop (17 + m) true
    { lastStable := true, lastRead := true, lastDebounce := 6 } rfl rfl]

/-- C2: with one poll per millisecond, `DEBOUNCE_MS = 10` and the
active-high policy, the raw trace on input pin 4 (channel index 2) —
HIGH at t = 0, LOW at t = 3 ms, HIGH at t = 6 ms and thereafter —
produces exactly one edge event, which is "activated" (`some true`),
at poll 17, i.e. at t = 16 ms, and at no other time; the activated
edge of channel 2 maps to exactly one MIDI message (a NoteOn or a
ProgramChange, depending on the mode) fanned out to both transports. -/
theorem c2_exactly_one_event :
    (∀ k, chanEvent c2tr k = if k = 17 then some true else none) ∧
    (c2tr 17).1 = 16 ∧
    inputPins 2 = 4 ∧
    (∀ pm : Bool, ∃ msg,
      (msg = MidiMsg.noteOn (noteNumbers 2) NOTE_ON_VELOCITY MIDI_CHANNEL ∨
       msg = MidiMsg.progChange (programNumbers 2) MIDI_CHANNEL) ∧
      emitMsgs pm 2 true = [(Transport.usb, msg), (Transport.serialPort, msg)]) := by
  refine ⟨?_, rfl, rfl, ?_⟩
  · have hsmall : ∀ k, k < 18 →
        chanEvent c2tr k = if k = 17 then some true else none := by
      set_option maxRecDepth 8192 in decide
    intro k
    rcases Nat.lt_or_ge k 18 with hk | hk
    · exact hsmall k hk
    · obtain ⟨m, rfl⟩ : ∃ m, k = 17 + m + 1 := ⟨k - 18, by omega⟩
      rw [c2_event_late, if_neg (by omega)]
  · intro pm
    cases pm with
    | false =>
      exact ⟨MidiMsg.noteOn (noteNumbers 2) NOTE_ON_VELOCITY MIDI_CHANNEL,
        Or.inl rfl, rfl⟩
    | true =>
      exact ⟨MidiMsg.progChange (programNumbers 2) MIDI_CHANNEL,
        Or.inr rfl, rfl⟩

/-! ### Outbound mapping claims -/

/-- C3: on every confirmed "activated" edge while the mode pin reads
LOW (NoteMode), exactly one NoteOn message is sent, fanned out to the
USB transport and then the serial transport, with velocity
`NOTE_ON_VELOCITY = 110`, note the channel's configured note number,
and MIDI channel `MIDI_CHANNEL = 1`. -/
theorem noteMode_activated_sends_noteOn (i : Fin 4) :
    emitMsgs (programModeOf LOW) i true =
      [(Transport.usb,
        MidiMsg.noteOn (noteNumbers i) NOTE_ON_VELOCITY MIDI_CHANNEL),
       (Transport.serialPort,
        MidiMsg.noteOn (noteNumbers i) NOTE_ON_VELOCITY MIDI_CHANNEL)] ∧
    NOTE_ON_VELOCITY = 110 ∧ MIDI_CHANNEL = 1 :=
  ⟨rfl, rfl, rfl⟩

/-- C7: on every confirmed "deactivated" edge while the mode pin reads
HIGH (ProgramChangeMode), no outbound MIDI message is produced on
either transport. -/
theorem programMode_deactivated_sends_nothing (i : Fin 4) :
    emitMsgs (programModeOf HIGH) i false = [] :=
  rfl

/-! ### Inbound mapping claims -/

/-- C4: a NoteOn with velocity 0 produces exactly the same output-pin
state change as a NoteOff with the same note, for every channel number,
note and prior pin state; in particular NoteOn(note 60, velocity 0)
drives output pin 14 HIGH. -/
theorem noteOn_vel0_eq_noteOff (c n : Nat) (st : PinState) :
    processNoteOn c n 0 st = processNoteOff c n 0 st ∧
    processNoteOn c 60 0 st 14 = true := by
  constructor
  · rfl
  · show processNoteOff c 60 0 st 14 = true
    unfold processNoteOff
    rw [show findChannel 60 = some 0 from rfl]
    exact Function.update_same _ _ _

/-- C5: inbound NoteOn(note 61, velocity > 0) followed by inbound
NoteOff(note 61) drives output pin 15 first LOW (active) and then HIGH
(inactive), with pins 14, 16, 17 unchanged throughout. -/
theorem noteOn_noteOff_roundtrip_pin15 (c1 c2 v : Nat) (st : PinState)
    (hv : v ≠ 0) :
    processNoteOn c1 61 v st 15 = false ∧
    processNoteOff c2 61 0 (processNoteOn c1 61 v st) 15 = true ∧
    (processNoteOn c1 61 v st 14 = st 14 ∧
     processNoteOn c1 61 v st 16 = st 16 ∧
     processNoteOn c1 61 v st 17 = st 17) ∧
    (processNoteOff c2 61 0 (processNoteOn c1 61 v st) 14 = st 14 ∧
     processNoteOff c2 61 0 (processNoteOn c1 61 v st) 16 = st 16 ∧
     processNoteOff c2 61 0 (processNoteOn c1 61 v st) 17 = st 17) := by
  have hOn : processNoteOn c1 61 v st = Function.update st 15 false := by
    unfold processNoteOn
    rw [if_neg hv, show findChannel 61 = some 1 from rfl]
    rfl
  have hOff : processNoteOff c2 61 0 (processNoteOn c1 61 v st) =
      Function.update (Function.update st 15 false) 15 true := by
    rw [hOn]
    unfold processNoteOff
    rw [show findChannel 61 = some 1 from rfl]
    rfl
  rw [hOn] at hOff
  rw [hOn, hOff]
  refine ⟨Function.update_same _ _ _, Function.update_same _ _ _, ?_, ?_⟩ <;>
    refine ⟨?_, ?_, ?_⟩ <;>
    simp [Function.update_noteq]

/-- Witness for `noteOn_noteOff_roundtrip_pin15` at channel 1,
velocity 110, starting from the boot state (all pins HIGH). -/
theorem noteOn_noteOff_roundtrip_pin15_witness :
    (110 : Nat) ≠ 0 ∧
    (processNoteOn 1 61 110 (fun _ => true) 15 = false ∧
     processNoteOff 1 61 0 (processNoteOn 1 61 110 (fun _ => true)) 15 = true ∧
     (processNoteOn 1 61 110 (fun _ => true) 14 = (fun _ : Nat => true) 14 ∧
      processNoteOn 1 61 110 (fun _ => true) 16 = (fun _ : Nat => true) 16 ∧
      processNoteOn 1 61 110 (fun _ => true) 17 = (fun _ : Nat => true) 17) ∧
     (processNoteOff 1 61 0 (processNoteOn 1 61 110 (fun _ => true)) 14 =
        (fun _ : Nat => true) 14 ∧
      processNoteOff 1 61 0 (processNoteOn 1 61 110 (fun _ => true)) 16 =
        (fun _ : Nat => true) 16 ∧
      processNoteOff 1 61 0 (processNoteOn 1 61 110 (fun _ => true)) 17 =
        (fun _ : Nat => true) 17)) :=
  ⟨by decide, noteOn_noteOff_roundtrip_pin15 1 1 110 (fun _ => true) (by decide)⟩

/-- C8: an inbound NoteOn or NoteOff whose note matches none of the
four configured note numbers (60–63) is a silent no-op leaving the pin
state unchanged; when the note does match, the channel lookup is
first-match-wins: it returns a channel whose note equals the inbound
note and no earlier channel matches. -/
theorem unmatched_note_noop (c n v : Nat) (st : PinState) :
    ((n ≠ 60 ∧ n ≠ 61 ∧ n ≠ 62 ∧ n ≠ 63) →
      processNoteOn c n v st = st ∧ processNoteOff c n v st = st) ∧
    (∀ i, findChannel n = some i →
      noteNumbers i = n ∧ ∀ j, j < i → noteNumbers j ≠ n) := by
  constructor
  · rintro ⟨h60, h61, h62, h63⟩
    have hnone : findChannel n = none := by
      unfold findChannel
      rw [if_neg (fun h => h60 h.symm), if_neg (fun h => h61 h.symm),
        if_neg (fun h => h62 h.symm), if_neg (fun h => h63 h.symm)]
    constructor
    · unfold processNoteOn
      split
      · unfold processNoteOff
        rw [hnone]
      · rw [hnone]
    · unfold processNoteOff
      rw [hnone]
  · intro i hi
    by_cases h60 : n = 60
    · subst h60
      rw [show findChannel 60 = some 0 from rfl] at hi
      cases hi
      exact ⟨rfl, by decide⟩
    by_cases h61 : n = 61
    · subst h61
      rw [show findChannel 61 = some 1 from rfl] at hi
      cases hi
      exact ⟨rfl, by decide⟩
    by_cases h62 : n = 62
    · subst h62
      rw [show findChannel 62 = some 2 from rfl] at hi
      cases hi
      exact ⟨rfl, by decide⟩
    by_cases h63 : n = 63
    · subst h63
      rw [show findChannel 63 = some 3 from rfl] at hi
      cases hi
      exact ⟨rfl, by decide⟩
    · have hnone : findChannel n = none := by
        unfold findChannel
        rw [if_neg (fun h => h60 h.symm), if_neg (fun h => h61 h.symm),
          if_neg (fun h => h62 h.symm), if_neg (fun h => h63 h.symm)]
      rw [hnone] at hi
      cases hi

/-- Witness for `unmatched_note_noop`: note 59 matches no channel, so
NoteOn and NoteOff on it leave the boot pin state unchanged. -/
theorem unmatched_note_noop_witness :
    ((59 : Nat) ≠ 60 ∧ (59 : Nat) ≠ 61 ∧ (59 : Nat) ≠ 62 ∧ (59 : Nat) ≠ 63) ∧
    (processNoteOn 1 59 64 (fun _ => true) = (fun _ => true) ∧
     processNoteOff 1 59 64 (fun _ => true) = (fun _ => true)) :=
  ⟨by decide, (unmatched_note_noop 1 59 64 (fun _ => true)).1 (by decide)⟩

/-- C9: the inbound MIDI channel number is a pass-through: for any two
channel values in 1..16, `processNoteOn` (and `processNoteOff`) perform
identical output-pin writes. -/
theorem midi_channel_passthrough (c1 c2 n v : Nat) (st : PinState)
    (h1 : 1 ≤ c1 ∧ c1 ≤ 16) (h2 : 1 ≤ c2 ∧ c2 ≤ 16) :
    processNoteOn c1 n v st = processNoteOn c2 n v st ∧
    processNoteOff c1 n v st = processNoteOff c2 n v st :=
  ⟨rfl, rfl⟩

/-- Witness for `midi_channel_passthrough` at channels 1 and 16. -/
theorem midi_channel_passthrough_witness :
    ((1 : Nat) ≤ 1 ∧ (1 : Nat) ≤ 16) ∧ ((1 : Nat) ≤ 16 ∧ (16 : Nat) ≤ 16) ∧
    (processNoteOn 1 60 64 (fun _ => true) =
       processNoteOn 16 60 64 (fun _ => true) ∧
     processNoteOff 1 60 64 (fun _ => true) =
       processNoteOff 16 60 64 (fun _ => true)) :=
  ⟨by decide, by decide,
   midi_channel_passthrough 1 16 60 64 (fun _ => true) (by decide) (by decide)⟩

/-! ### Dispatcher ordering -/

/-- C6: in one polling pass the four channels are processed in
ascending index order 0, 1, 2, 3, every channel that confirms an edge
in the pass contributes its sends, and the emitted send list is exactly
channel 0's sends followed by channel 1's, channel 2's and channel 3's
— so a lower-indexed channel's MIDI message reaches both transports
strictly before any higher-indexed channel's message. -/
theorem loop_sends_in_ascending_channel_order (pm : Bool) (now : Nat)
    (rd : Fin 4 → Bool) (st : Fin 4 → ChanState) :
    (loopIter pm now rd st).2 =
      (chanStep pm now (rd 0) 0 (st 0)).2 ++
      (chanStep pm now (rd 1) 1 (st 1)).2 ++
      (chanStep pm now (rd 2) 2 (st 2)).2 ++
      (chanStep pm now (rd 3) 3 (st 3)).2 := by
  show (loopChannels pm now rd [0, 1, 2, 3] st).2 = _
  simp +decide [loopChannels, Function.update]

/-! ### The implicit stable-level invariant -/

/-- With the configured active-high policy, the active flag of an edge
event is the committed level itself. -/
theorem activeOf_id (r : Bool) : activeOf r = r := by
  cases r <;> rfl

/-- While no event is emitted, the stable level does not change. -/
theorem stable_const_of_no_event (tr : Nat → Nat × Bool) (j m : Nat)
    (h : ∀ l, j < l → l ≤ j + m → chanEvent tr l = none) :
    (chanRun tr (j + m)).lastStable = (chanRun tr j).lastStable := by
  induction m with
  | zero => rfl
  | succ p ih =>
    have hev : chanEvent tr (j + p + 1) = none := h _ (by omega) (by omega)
    have hev2 : (chanPoll (tr (j + p + 1)).1 (tr (j + p + 1)).2
        (chanRun tr (j + p))).2 = none := hev
    have hstep : (chanRun tr (j + p + 1)).lastStable =
        (chanRun tr (j + p)).lastStable := by
      show ((chanPoll (tr (j + p + 1)).1 (tr (j + p + 1)).2
        (chanRun tr (j + p))).1).lastStable = _
      rw [chanPoll_fst_lastStable, if_pos hev2]
    show (chanRun tr (j + p + 1)).lastStable = _
    rw [hstep, ih (fun l hl1 hl2 => h l hl1 (by omega))]

/-- C10: the stable level of a channel changes exactly when an edge
event is emitted; on an event the stable level becomes the current raw
reading and the event's active flag is determined by it; hence
consecutive confirmed edge events on the same channel strictly
alternate in direction. -/
theorem stable_commit_alternation (tr : Nat → Nat × Bool) :
    (∀ k, (chanRun tr (k + 1)).lastStable ≠ (chanRun tr k).lastStable ↔
      chanEvent tr (k + 1) ≠ none) ∧
    (∀ k a, chanEvent tr (k + 1) = some a →
      (chanRun tr (k + 1)).lastStable = (tr (k + 1)).2 ∧
      a = activeOf ((tr (k + 1)).2)) ∧
    (∀ j k a b, chanEvent tr j = some a → chanEvent tr k = some b →
      j < k → (∀ l, l < k → j < l → chanEvent tr l = none) → b = (!a)) := by
  have hstable : ∀ k, (chanRun tr (k + 1)).lastStable =
      if chanEvent tr (k + 1) = none then (chanRun tr k).lastStable
      else (tr (k + 1)).2 := fun k =>
    chanPoll_fst_lastStable (tr (k + 1)).1 (tr (k + 1)).2 (chanRun tr k)
  have hiff : ∀ k, (chanRun tr (k + 1)).lastStable ≠
      (chanRun tr k).lastStable ↔ chanEvent tr (k + 1) ≠ none := by
    intro k
    rcases hev : chanEvent tr (k + 1) with _ | a
    · rw [hstable k, if_pos hev]
      simp
    · have hne : chanEvent tr (k + 1) ≠ none := by rw [hev]; simp
      have hold : (chanRun tr k).lastStable ≠ (tr (k + 1)).2 := by
        have := (chanPoll_event_ne_none_iff (tr (k + 1)).1 (tr (k + 1)).2
          (chanRun tr k)).mp hne
        exact this.2
      rw [hstable k, if_neg (by rw [hev]; simp)]
      simp only [hev, ne_eq, reduceCtorEq, not_false_eq_true, iff_true]
      exact fun h => hold h.symm
  have hcommit : ∀ k a, chanEvent tr (k + 1) = some a →
      (chanRun tr (k + 1)).lastStable = (tr (k + 1)).2 ∧
      a = activeOf ((tr (k + 1)).2) := by
    intro k a hev
    refine ⟨by rw [hstable k, if_neg (by rw [hev]; simp)], ?_⟩
    exact chanPoll_event_some hev
  refine ⟨hiff, hcommit, ?_⟩
  intro j k a b hj hk hjk hbetween
  cases j with
  | zero => exact absurd hj (by simp [chanEvent])
  | succ j0 =>
    cases k with
    | zero => omega
    | succ k0 =>
      have hsj : (chanRun tr (j0 + 1)).lastStable = (tr (j0 + 1)).2 ∧
          a = activeOf ((tr (j0 + 1)).2) := hcommit j0 a hj
      have hconst : (chanRun tr ((j0 + 1) + (k0 - j0 - 1))).lastStable =
          (chanRun tr (j0 + 1)).lastStable :=
        stable_const_of_no_event tr (j0 + 1) (k0 - j0 - 1)
          (fun l hl1 hl2 => hbetween l (by omega) hl1)
      have hk0 : (j0 + 1) + (k0 - j0 - 1) = k0 := by omega
      rw [hk0] at hconst
      have hne : chanEvent tr (k0 + 1) ≠ none := by rw [hk]; simp
      have hold : (chanRun tr k0).lastStable ≠ (tr (k0 + 1)).2 :=
        ((chanPoll_event_ne_none_iff (tr (k0 + 1)).1 (tr (k0 + 1)).2
          (chanRun tr k0)).mp hne).2
      have hb : b = activeOf ((tr (k0 + 1)).2) := (hcommit k0 b hk).2
      rw [activeOf_id] at hb
      have ha : a = (tr (j0 + 1)).2 := by
        rw [hsj.2, activeOf_id]
      rw [hconst, hsj.1, ← ha] at hold
      have hne2 : b ≠ a := by
        rw [hb]
        exact fun h => hold h.symm
      cases a <;> cases b <;> first | rfl | exact absurd rfl hne2

/-- Witness for `stable_commit_alternation`: a trace with an activated
event at poll 2 and a deactivated event at poll 4, whose directions
alternate. -/
theorem stable_commit_alternation_witness :
    chanEvent (fun k => (10 * k, decide (1 ≤ k ∧ k ≤ 2))) 2 = some true ∧
    chanEvent (fun k => (10 * k, decide (1 ≤ k ∧ k ≤ 2))) 4 = some false ∧
    (∀ l, l < 4 → 2 < l →
      chanEvent (fun k => (10 * k, decide (1 ≤ k ∧ k ≤ 2))) l = none) ∧
    false = (!true) :=
  ⟨by decide, by decide, by decide,
   (stable_commit_alternation (fun k => (10 * k, decide (1 ≤ k ∧ k ≤ 2)))).2.2
     2 4 true false (by decide) (by decide) (by decide) (by decide)⟩

end MidiGPIO
